import Mathlib

set_option maxHeartbeats 1000000
set_option maxRecDepth 8000

namespace S2C

/-! Shallow embedding of the stroke2code core pipeline:
predicate discovery (src/src/analysis/PatternAnalyzer.ts), code synthesis
(the CodeGenerator source file), and output verification
(src/src/verify/OutputValidator.ts), together with the Grid container
(src/src/core/Grid.ts).  JS numbers that only ever hold non-negative
integers are modelled as `Nat`; the `confidence` float (values 0, 0.5,
0.7, 1 in the source) is modelled as a rational. -/

/-- A zero-based grid coordinate, mirroring `GridCoord` of the core types. -/
structure GridCoord where
  row : Nat
  col : Nat
deriving DecidableEq

/-- A discovered predicate, mirroring the `Predicate` records built in
PatternAnalyzer.ts.  The `type` tags are the exact string literals of the
source (note: the fill tester and the filled-rectangle tester both use the
tag "filled_rect"). -/
structure Predicate where
  type : String
  char : Char
  expression : String
  params : List String
  isScalable : Bool
  confidence : Rat
deriving DecidableEq

/-- PatternAnalyzer.parameterizeValue: convert a literal value to a
parametric expression if possible.  Direct transcription of the if-chain;
`Math.floor(dimension / 2)` is `Nat` division. -/
def parameterizeValue (value dimension : Nat) (dimName : String) : String :=
  if value = 0 then "0"
  else if value = dimension then dimName
  else if value = dimension - 1 then dimName ++ "-1"
  else if value = dimension / 2 then dimName ++ "/2"
  else if value = dimension - 2 then dimName ++ "-2"
  else if dimension % 4 = 0 ∧ value = dimension / 4 then dimName ++ "/4"
  else if dimension % 3 = 0 ∧ value = dimension / 3 then dimName ++ "/3"
  else toString value

/-- The value-to-symbol mapping exactly as the specification words it (C8):
"0" when the value is 0; the dimension name when it equals the dimension;
"D-1", "D/2" (floor), "D-2"; "D/4" when the dimension is divisible by 4 and
the value is its quarter; "D/3" when divisible by 3 and the value is its
third; otherwise the decimal literal — first applicable clause wins. -/
def parameterizeValueClaim (value dimension : Nat) (dimName : String) : String :=
  if value = 0 then "0"
  else if value = dimension then dimName
  else if value = dimension - 1 then dimName ++ "-1"
  else if value = dimension / 2 then dimName ++ "/2"
  else if value = dimension - 2 then dimName ++ "-2"
  else if dimension % 4 = 0 ∧ value = dimension / 4 then dimName ++ "/4"
  else if dimension % 3 = 0 ∧ value = dimension / 3 then dimName ++ "/3"
  else toString value

/-- The source's confidence literal 0.5, as a reduced rational (written in
normal form so that kernel evaluation of equality succeeds). -/
def q05 : Rat := ⟨1, 2, by decide, by decide⟩

/-- The source's confidence literal 0.7, as a reduced rational. -/
def q07 : Rat := ⟨7, 10, by decide, by decide⟩

/-- JS `String.prototype.includes` specialised to the single-character
needles `'H'` / `'W'` used by the analyzer. -/
def containsChar (s : String) (c : Char) : Bool :=
  s.toList.contains c

/-- The coordinate pairs of a cell list (the source encodes a cell as the
string key "r,c" when it needs set behaviour; the encoding is injective, so
the pair itself is used here). -/
def cellPairs (cells : List GridCoord) : List (Nat × Nat) :=
  cells.map fun g => (g.row, g.col)

/-- PatternAnalyzer.tryFill: check if ALL cells are filled. -/
def tryFill (cells : List GridCoord) (ch : Char) (H W : Nat) : Option Predicate :=
  if cells.length ≠ H * W then none
  else some { type := "filled_rect", char := ch, expression := "true",
              params := ["H", "W"], isScalable := true, confidence := 1 }

/-- The border keys inserted by PatternAnalyzer.tryBorder's two loops:
`(0,c)` and `(H-1,c)` for `c < W`, then `(r,0)` and `(r,W-1)` for
`1 ≤ r < H-1`. -/
def borderKeyList (H W : Nat) : List (Nat × Nat) :=
  ((List.range W).flatMap fun c => [(0, c), (H - 1, c)]) ++
    ((List.range' 1 (H - 1 - 1)).flatMap fun r => [(r, 0), (r, W - 1)])

/-- PatternAnalyzer.tryBorder: check for border pattern (size equality plus
containment of every expected border key). -/
def tryBorder (cells : List GridCoord) (ch : Char) (H W : Nat) : Option Predicate :=
  let cellSet := (cellPairs cells).toFinset
  let expectedBorder := (borderKeyList H W).toFinset
  if cellSet.card ≠ expectedBorder.card then none
  else if expectedBorder ⊆ cellSet then
    some { type := "border", char := ch,
           expression := "r == 0 || r == H-1 || c == 0 || c == W-1",
           params := ["H", "W"], isScalable := true, confidence := 1 }
  else none

/-- PatternAnalyzer.tryDiagonal: check for main diagonal (r == c). -/
def tryDiagonal (cells : List GridCoord) (ch : Char) (H W : Nat) : Option Predicate :=
  let minDim := min H W
  if cells.length ≠ minDim then none
  else if cells.all fun c => c.row == c.col then
    some { type := "diagonal", char := ch, expression := "r == c",
           params := ["H", "W"], isScalable := true, confidence := 1 }
  else none

/-- PatternAnalyzer.tryAntiDiagonal: check for anti-diagonal
(r + c == min(H,W) - 1). -/
def tryAntiDiagonal (cells : List GridCoord) (ch : Char) (H W : Nat) : Option Predicate :=
  let minDim := min H W
  if cells.length ≠ minDim then none
  else if cells.all fun c => c.row + c.col == minDim - 1 then
    some { type := "anti_diagonal", char := ch,
           expression := if H ≤ W then "r + c == H - 1 && c < H"
                         else "r + c == W - 1 && r < W",
           params := ["H", "W"], isScalable := true, confidence := 1 }
  else none

/-- PatternAnalyzer.tryHorizontalLine: check for horizontal line.  The
source reads `cells[0].row` after the `cells.length === W` guard; for
positive `W` the list is then non-empty, `headD` supplies the guard's
default. -/
def tryHorizontalLine (cells : List GridCoord) (ch : Char) (H W : Nat) : Option Predicate :=
  if cells.length ≠ W then none
  else
    let row := (cells.headD ⟨0, 0⟩).row
    if cells.all fun c => c.row == row then
      let param := parameterizeValue row H "H"
      some { type := "horizontal_line", char := ch,
             expression := "r == " ++ param,
             params := if containsChar param 'H' then ["H", "W"] else ["W"],
             isScalable := containsChar param 'H',
             confidence := if containsChar param 'H' then 1 else q05 }
    else none

/-- PatternAnalyzer.tryVerticalLine: check for vertical line. -/
def tryVerticalLine (cells : List GridCoord) (ch : Char) (H W : Nat) : Option Predicate :=
  if cells.length ≠ H then none
  else
    let col := (cells.headD ⟨0, 0⟩).col
    if cells.all fun c => c.col == col then
      let param := parameterizeValue col W "W"
      some { type := "vertical_line", char := ch,
             expression := "c == " ++ param,
             params := if containsChar param 'W' then ["H", "W"] else ["H"],
             isScalable := containsChar param 'W',
             confidence := if containsChar param 'W' then 1 else q05 }
    else none

/-- PatternAnalyzer.tryFilledRectangle: check for filled rectangle region.
The source folds min/max over all cells starting from ±Infinity; on the
(guarded non-empty) list this equals folding from the head's values. -/
def tryFilledRectangle (cells : List GridCoord) (ch : Char) (H W : Nat) : Option Predicate :=
  match cells with
  | [] => none
  | c0 :: cs =>
    let minR := cs.foldl (fun a x => min a x.row) c0.row
    let maxR := cs.foldl (fun a x => max a x.row) c0.row
    let minC := cs.foldl (fun a x => min a x.col) c0.col
    let maxC := cs.foldl (fun a x => max a x.col) c0.col
    let expectedCount := (maxR - minR + 1) * (maxC - minC + 1)
    if (c0 :: cs).length ≠ expectedCount then none
    else
      let cellSet := (cellPairs (c0 :: cs)).toFinset
      if (List.range' minR (maxR - minR + 1)).all
          (fun r => (List.range' minC (maxC - minC + 1)).all
            (fun c => decide ((r, c) ∈ cellSet))) then
        let r1 := parameterizeValue minR H "H"
        let r2 := parameterizeValue (maxR + 1) H "H"
        let c1 := parameterizeValue minC W "W"
        let c2 := parameterizeValue (maxC + 1) W "W"
        let isScalable := containsChar r1 'H' || containsChar r2 'H' ||
                          containsChar c1 'W' || containsChar c2 'W'
        some { type := "filled_rect", char := ch,
               expression := "r >= " ++ r1 ++ " && r < " ++ r2 ++
                             " && c >= " ++ c1 ++ " && c < " ++ c2,
               params := ["H", "W"], isScalable := isScalable,
               confidence := if isScalable then 1 else q07 }
      else none

/-- PatternAnalyzer.tryCheckerboard: check for checkerboard pattern.
`Math.ceil((H*W)/2)` is `(H*W+1)/2`; `Math.abs` of the signed difference is
taken over the integers. -/
def tryCheckerboard (cells : List GridCoord) (ch : Char) (H W : Nat) : Option Predicate :=
  let expectedCount := (H * W + 1) / 2
  if ((cells.length : Int) - (expectedCount : Int)).natAbs > 1 then none
  else
    let evenCount := (cells.filter fun c => (c.row + c.col) % 2 == 0).length
    let oddCount := (cells.filter fun c => (c.row + c.col) % 2 == 1).length
    if evenCount == cells.length then
      some { type := "checkerboard", char := ch, expression := "(r + c) % 2 == 0",
             params := ["H", "W"], isScalable := true, confidence := 1 }
    else if oddCount == cells.length then
      some { type := "checkerboard", char := ch, expression := "(r + c) % 2 == 1",
             params := ["H", "W"], isScalable := true, confidence := 1 }
    else none

/-- PatternAnalyzer.fallbackCoordinateSet: explicit coordinate set.
`char.charCodeAt(0)` is the character's code point. -/
def fallbackCoordinateSet (_cells : List GridCoord) (ch : Char) : Predicate :=
  { type := "coordinate_set", char := ch,
    expression := "occupied_" ++ toString ch.toNat ++ ".count(\x7br, c\x7d)",
    params := [], isScalable := false, confidence := 0 }

/-- PatternAnalyzer.discoverPredicate: try each detector in priority order,
return the first non-null result, falling back to the coordinate set. -/
def discoverPredicate (cells : List GridCoord) (ch : Char) (H W : Nat) : Predicate :=
  match tryFill cells ch H W with
  | some p => p
  | none =>
  match tryBorder cells ch H W with
  | some p => p
  | none =>
  match tryDiagonal cells ch H W with
  | some p => p
  | none =>
  match tryAntiDiagonal cells ch H W with
  | some p => p
  | none =>
  match tryHorizontalLine cells ch H W with
  | some p => p
  | none =>
  match tryVerticalLine cells ch H W with
  | some p => p
  | none =>
  match tryFilledRectangle cells ch H W with
  | some p => p
  | none =>
  match tryCheckerboard cells ch H W with
  | some p => p
  | none => fallbackCoordinateSet cells ch

/-! The code synthesizer (CodeGenerator). -/

/-- The generated-code record, mirroring `GeneratedCode`; the JS `Map` of
dimension parameters is an ordered association list. -/
structure GeneratedCode where
  code : String
  params : List (String × Nat)
  warnings : List String
  isScalable : Bool
deriving DecidableEq

/-- Insertion-ordered multimap push, mirroring the JS
`Map`/`has`/`get!.push` idiom used by `getCellsByChar` and by the
generator's row grouping: appending to an existing key's list, else
appending a new key at the end. -/
def pushPair {κ α : Type} [BEq κ] (acc : List (κ × List α)) (k : κ) (v : α) :
    List (κ × List α) :=
  if acc.any fun e => e.1 == k then
    acc.map fun e => if e.1 == k then (e.1, e.2 ++ [v]) else e
  else
    acc ++ [(k, [v])]

/-- CodeGenerator.charToLiteral: convert character to C++ char literal. -/
def charToLiteral (c : Char) : String :=
  if c = '\\' then "\x27\\\\\x27"
  else if c = '\x27' then "\x27\\\x27\x27"
  else if c = '\n' then "\x27\\n\x27"
  else if c = '\t' then "\x27\\t\x27"
  else "\x27" ++ String.singleton c ++ "\x27"

/-- One flat coordinate term `(r==X && c==Y)` of
CodeGenerator.generateCoordinateCondition. -/
def coordTerm (g : GridCoord) : String :=
  "(r==" ++ toString g.row ++ " && c==" ++ toString g.col ++ ")"

/-- The row-keyed column grouping built by
CodeGenerator.generateGroupedCondition's first loop (a JS `Map` in
insertion order). -/
def byRow (cells : List GridCoord) : List (Nat × List Nat) :=
  cells.foldl (fun acc cell => pushPair acc cell.row cell.col) []

/-- The per-row clauses of CodeGenerator.generateGroupedCondition. -/
def rowConditions (groups : List (Nat × List Nat)) : List String :=
  groups.map fun e =>
    if e.2.length = 1 then
      "(r==" ++ toString e.1 ++ " && c==" ++ toString (e.2.headD 0) ++ ")"
    else
      "(r==" ++ toString e.1 ++ " && (" ++
        String.intercalate " || " (e.2.map fun c => "c==" ++ toString c) ++ "))"

/-- The line-wrapping separator used by the generator. -/
def wrapSep : String := " ||\n                "

/-- CodeGenerator.generateGroupedCondition: group coordinates by row. -/
def generateGroupedCondition (cells : List GridCoord) : String :=
  String.intercalate wrapSep (rowConditions (byRow cells))

/-- CodeGenerator.generateCoordinateCondition: simple
`(r==X && c==Y) || ...` chain, grouped by row above 20 cells, single-line
up to 5 terms, line-wrapped above. -/
def generateCoordinateCondition (cells : List GridCoord) : String :=
  if cells.length = 0 then "false"
  else if cells.length > 20 then generateGroupedCondition cells
  else
    let conditions := cells.map coordTerm
    if conditions.length ≤ 5 then String.intercalate " || " conditions
    else String.intercalate wrapSep conditions

/-- CodeGenerator.predicateToCondition: coordinate sets expand to the OR
chain over the symbol's recorded cells, everything else renders its stored
expression verbatim. -/
def predicateToCondition (cellsByChar : List (Char × List GridCoord))
    (pred : Predicate) : String :=
  if pred.type = "coordinate_set" then
    let cells := ((cellsByChar.find? fun e => e.1 == pred.char).map fun e => e.2).getD []
    generateCoordinateCondition cells
  else pred.expression

/-- CodeGenerator.generateConditions: the if / else-if / else chain. -/
def generateConditions (cellsByChar : List (Char × List GridCoord))
    (predicates : List Predicate) : String :=
  if predicates.length = 0 then "            cout << \x27 \x27;"
  else
    let branchLines := predicates.enum.flatMap fun pi =>
      let condition := predicateToCondition cellsByChar pi.2
      let charLiteral := charToLiteral pi.2.char
      (if pi.1 = 0 then ["            if (" ++ condition ++ ") \x7b"]
       else ["            \x7d else if (" ++ condition ++ ") \x7b"]) ++
      ["                cout << " ++ charLiteral ++ ";"]
    String.intercalate "\n"
      (branchLines ++ ["            \x7d else \x7b",
                       "                cout << \x27 \x27;",
                       "            \x7d"])

/-- CodeGenerator.buildCode: the fixed program template. -/
def buildCode (cellsByChar : List (Char × List GridCoord))
    (predicates : List Predicate) (H W : Nat) : String :=
  String.intercalate "\n"
    (["#include <iostream>",
      "using namespace std;",
      "",
      "int main() \x7b",
      "    int H = " ++ toString H ++ ";  // Height - change to scale",
      "    int W = " ++ toString W ++ ";  // Width - change to scale",
      "",
      "    for (int r = 0; r < H; r++) \x7b",
      "        for (int c = 0; c < W; c++) \x7b"] ++
     [generateConditions cellsByChar predicates] ++
     ["        \x7d",
      "        cout << endl;",
      "    \x7d",
      "",
      "    return 0;",
      "\x7d"])

/-- CodeGenerator.generate: emit the program plus scalability metadata. -/
def generate (predicates : List Predicate) (H W : Nat)
    (cellsByChar : List (Char × List GridCoord)) : GeneratedCode :=
  let params := [("H", H), ("W", W)]
  let hasCoordinateSets := predicates.any fun p => p.type == "coordinate_set"
  let isScalable := !hasCoordinateSets
  let warnings :=
    if hasCoordinateSets then
      ["⚠ Contains fixed coordinates - will not scale with H/W changes."]
    else []
  let code := buildCode cellsByChar predicates H W
  { code := code, params := params, warnings := warnings, isScalable := isScalable }

/-! The Grid container and the output verifier. -/

/-- A grid cell, mirroring `Cell` (char plus write provenance). -/
structure Cell where
  char : Option Char
  strokeId : Int
  timestamp : Nat
deriving DecidableEq

/-- The Grid container of src/src/core/Grid.ts (row-major cell matrix). -/
structure Grid where
  rows : Nat
  cols : Nat
  cells : List (List Cell)
deriving DecidableEq

/-- Build a grid from optional characters (strokeId/timestamp are
irrelevant to rendering and grouping). -/
def gridOf (rows cols : Nat) (chars : List (List (Option Char))) : Grid :=
  { rows := rows, cols := cols,
    cells := chars.map fun r => r.map fun oc =>
      { char := oc, strokeId := -1, timestamp := 0 } }

/-- Grid.toString: canonical text rendering, rows newline-joined, empty
cells rendered as a space. -/
def toStringRepr (g : Grid) : String :=
  String.intercalate "\n"
    (g.cells.map fun row => String.mk (row.map fun cell => cell.char.getD ' '))

/-- Grid.getCellsByChar: cells grouped by character in row-major scan
order (insertion-ordered JS Map). -/
def getCellsByChar (g : Grid) : List (Char × List GridCoord) :=
  (g.cells.enum.foldl
    (fun acc ri =>
      ri.2.enum.foldl
        (fun acc2 ci =>
          match ci.2.char with
          | some ch => pushPair acc2 ch ⟨ri.1, ci.1⟩
          | none => acc2)
        acc)
    [])

/-- A single reported difference, mirroring `Difference`. -/
structure Difference where
  row : Nat
  col : Nat
  expected : String
  actual : String
deriving DecidableEq

/-- The validation result, mirroring `ValidationResult`. -/
structure ValidationResult where
  valid : Bool
  differences : List Difference
deriving DecidableEq

/-- The whitespace class stripped by JS `String.prototype.trimEnd` (ASCII
range: space, tab, line feed, carriage return, vertical tab, form feed). -/
def isJsWhitespace (c : Char) : Bool :=
  c = ' ' || c = '\t' || c = '\n' || c = '\r' || c = '\x0b' || c = '\x0c'

/-- JS `trimEnd`: strip ALL trailing whitespace characters. -/
def jsTrimEnd (s : String) : String :=
  String.mk ((s.toList.reverse.dropWhile isJsWhitespace).reverse)

/-- OutputValidator.formatChar: format character for display. -/
def formatChar (c : Char) : String :=
  if c = ' ' then "(space)"
  else if c = '\t' then "(tab)"
  else if c = '\n' then "(newline)"
  else "\x27" ++ String.singleton c ++ "\x27"

/-- Split a character list at newline characters (JS `split('\n')`): the
empty text yields one empty line, a trailing newline yields a trailing
empty line. -/
def splitLinesAux : List Char → List Char → List (List Char)
  | [], cur => [cur.reverse]
  | c :: rest, cur =>
    if c = '\n' then cur.reverse :: splitLinesAux rest []
    else splitLinesAux rest (c :: cur)

/-- JS `text.split('\n')`, as lists of characters. -/
def splitLines (s : String) : List (List Char) :=
  splitLinesAux s.toList []

/-- OutputValidator.computeDiff: character-level differences over the
padded union of both texts' line/column extents (missing lines read as
empty, missing characters as spaces). -/
def computeDiff (expected actual : String) : List Difference :=
  let expectedLines := splitLines expected
  let actualLines := splitLines actual
  let maxRows := max expectedLines.length actualLines.length
  (List.range maxRows).flatMap fun r =>
    let expLine := expectedLines.getD r []
    let actLine := actualLines.getD r []
    let maxCols := max expLine.length actLine.length
    (List.range maxCols).filterMap fun c =>
      let expChar := expLine.getD c ' '
      let actChar := actLine.getD c ' '
      if expChar ≠ actChar then
        some { row := r, col := c, expected := formatChar expChar,
               actual := formatChar actChar }
      else none

/-- OutputValidator.validate: the candidate is `trimEnd`-ed, then compared
for exact string equality against the grid's canonical rendering. -/
def validate (g : Grid) (programOutput : String) : ValidationResult :=
  let expected := toStringRepr g
  let actual := jsTrimEnd programOutput
  if expected = actual then { valid := true, differences := [] }
  else { valid := false, differences := computeDiff expected actual }

/-! Semantic evaluation of the synthesized program, and the cell sets the
emitted boolean expressions characterize.  These definitions follow the
spec's description of the generated program ("evaluating it cell-by-cell
over [0,height)×[0,width) in discovery order", first matching branch's
symbol printed, blank when none matches, one line per row). -/

/-- One output row of the synthesized program: for each column the first
matching predicate's symbol, else a space.  The second component of each
pair is the C++ semantics of the corresponding predicate's condition. -/
def chainRow (preds : List (Char × (Nat → Nat → Bool))) (r W : Nat) : String :=
  String.mk ((List.range W).map fun c =>
    match preds.find? fun p => p.2 r c with
    | some p => p.1
    | none => ' ')

/-- The full text printed by the synthesized program (a newline after every
row, as emitted by `cout << endl`). -/
def chainOutput (preds : List (Char × (Nat → Nat → Bool))) (H W : Nat) : String :=
  String.join ((List.range H).map fun r => chainRow preds r W ++ "\n")

/-! The cell sets characterized by the boolean expressions the testers
emit, phrased from the claim's words ("the set of cells its returned
expression characterizes", over the grid `[0,H)×[0,W)`).  The parametric
bound strings produced by `parameterizeValue value dim name` always denote
`value` under C++ integer division (each branch returns a form whose value
is the input), so the sets are stated with the numeric values
themselves. -/

/-- All cells of the `[0,H)×[0,W)` grid. -/
def gridCellSet (H W : Nat) : Finset (Nat × Nat) :=
  Finset.range H ×ˢ Finset.range W

/-- Cells satisfying the fill expression `true`. -/
def fillCells (H W : Nat) : Finset (Nat × Nat) := gridCellSet H W

/-- Cells satisfying `r == 0 || r == H-1 || c == 0 || c == W-1`. -/
def borderCells (H W : Nat) : Finset (Nat × Nat) :=
  (gridCellSet H W).filter fun p => p.1 = 0 ∨ p.1 = H - 1 ∨ p.2 = 0 ∨ p.2 = W - 1

/-- Cells satisfying `r == c`. -/
def diagCells (H W : Nat) : Finset (Nat × Nat) :=
  (gridCellSet H W).filter fun p => p.1 = p.2

/-- Cells satisfying the emitted anti-diagonal expression
(`r + c == H - 1 && c < H` when `H ≤ W`, else `r + c == W - 1 && r < W`). -/
def antiDiagCells (H W : Nat) : Finset (Nat × Nat) :=
  (gridCellSet H W).filter fun p =>
    if H ≤ W then p.1 + p.2 = H - 1 ∧ p.2 < H else p.1 + p.2 = W - 1 ∧ p.1 < W

/-- Cells satisfying `r == row`. -/
def rowCells (row H W : Nat) : Finset (Nat × Nat) :=
  (gridCellSet H W).filter fun p => p.1 = row

/-- Cells satisfying `c == col`. -/
def colCells (col H W : Nat) : Finset (Nat × Nat) :=
  (gridCellSet H W).filter fun p => p.2 = col

/-- Cells satisfying `r >= r1 && r < r2 && c >= c1 && c < c2`. -/
def rectCells (r1 r2 c1 c2 H W : Nat) : Finset (Nat × Nat) :=
  (gridCellSet H W).filter fun p => r1 ≤ p.1 ∧ p.1 < r2 ∧ c1 ≤ p.2 ∧ p.2 < c2

/-- Cells satisfying `(r + c) % 2 == parity`. -/
def checkerCells (parity H W : Nat) : Finset (Nat × Nat) :=
  (gridCellSet H W).filter fun p => (p.1 + p.2) % 2 = parity

/-- Every coordinate lies inside the `[0,H)×[0,W)` grid. -/
def InBounds (cells : List GridCoord) (H W : Nat) : Prop :=
  ∀ g ∈ cells, g.row < H ∧ g.col < W

instance (cells : List GridCoord) (H W : Nat) : Decidable (InBounds cells H W) :=
  inferInstanceAs (Decidable (∀ g ∈ cells, _ ∧ _))

/-! Concrete inputs used by the claim theorems. -/

/-- Four even-parity cells of a 3×3 grid (all of parity class 0 except
`(2,2)`), in the row-major order `getCellsByChar` produces. -/
def cbCells4 : List GridCoord := [⟨0, 0⟩, ⟨0, 2⟩, ⟨1, 1⟩, ⟨2, 0⟩]

/-- The 3×3 grid holding 'A' exactly on `cbCells4`. -/
def gridCB : Grid :=
  gridOf 3 3 [[some 'A', none, some 'A'],
              [none, some 'A', none],
              [some 'A', none, none]]

/-- C++ semantics of the checkerboard expression `(r + c) % 2 == 0`. -/
def checkerSem (r c : Nat) : Bool := (r + c) % 2 == 0

/-- C++ semantics of the diagonal expression `r == c`. -/
def diagSem (r c : Nat) : Bool := r == c

/-- A 1×2 grid holding 'A' at `(0,0)` only (its rendering ends in a
blank). -/
def gridA12 : Grid := gridOf 1 2 [[some 'A', none]]

/-- A 1×1 grid holding 'X'. -/
def gridX : Grid := gridOf 1 1 [[some 'X']]

/-- All sixteen cells of a 4×4 grid, row-major. -/
def full16 : List GridCoord :=
  (List.range 4).flatMap fun r => (List.range 4).map fun c => ⟨r, c⟩

/-- Three cells of a 3×3 grid matching none of the eight testers. -/
def cells3 : List GridCoord := [⟨0, 0⟩, ⟨0, 1⟩, ⟨1, 1⟩]

/-- A full row 4 of a 7×3 grid (row 4 has no parametric relation to
height 7). -/
def hlCells73 : List GridCoord := [⟨4, 0⟩, ⟨4, 1⟩, ⟨4, 2⟩]

/-- The non-scalable horizontal-line predicate discovered on
`hlCells73`. -/
def pHL47 : Predicate :=
  { type := "horizontal_line", char := 'A', expression := "r == 4",
    params := ["W"], isScalable := false, confidence := q05 }

/-- Twenty-five coordinates spread over exactly three distinct rows. -/
def ex25 : List GridCoord :=
  ((List.range 9).map fun c => (⟨0, c⟩ : GridCoord)) ++
    ((List.range 8).map fun c => (⟨1, c⟩ : GridCoord)) ++
    ((List.range 8).map fun c => (⟨2, c⟩ : GridCoord))

/-! Basic facts about the coordinate set of a cell list and about the
characteristic sets. -/

lemma mem_cellSet {cells : List GridCoord} {p : Nat × Nat} :
    p ∈ (cellPairs cells).toFinset ↔ ∃ g ∈ cells, (g.row, g.col) = p := by
  simp [cellPairs]

lemma pair_mem_cellSet {cells : List GridCoord} {g : GridCoord} (hg : g ∈ cells) :
    (g.row, g.col) ∈ (cellPairs cells).toFinset :=
  mem_cellSet.2 ⟨g, hg, rfl⟩

lemma cellSet_card {cells : List GridCoord} (hnd : (cellPairs cells).Nodup) :
    (cellPairs cells).toFinset.card = cells.length := by
  rw [List.toFinset_card_of_nodup hnd, cellPairs, List.length_map]

lemma mem_gridCellSet {H W : Nat} {p : Nat × Nat} :
    p ∈ gridCellSet H W ↔ p.1 < H ∧ p.2 < W := by
  simp [gridCellSet, Finset.mem_product]

lemma cellSet_subset_grid {cells : List GridCoord} {H W : Nat}
    (hin : InBounds cells H W) :
    (cellPairs cells).toFinset ⊆ gridCellSet H W := by
  intro p hp
  obtain ⟨g, hg, he⟩ := mem_cellSet.1 hp
  cases he
  exact mem_gridCellSet.2 ⟨(hin g hg).1, (hin g hg).2⟩

lemma card_gridCellSet (H W : Nat) : (gridCellSet H W).card = H * W := by
  simp [gridCellSet]

lemma diagCells_eq_image (H W : Nat) :
    diagCells H W = (Finset.range (min H W)).image fun i => (i, i) := by
  ext p
  obtain ⟨r, c⟩ := p
  simp only [diagCells, Finset.mem_filter, mem_gridCellSet, Finset.mem_image,
    Finset.mem_range, Prod.mk.injEq]
  constructor
  · rintro ⟨⟨h1, h2⟩, h3⟩
    exact ⟨r, by omega, rfl, by omega⟩
  · rintro ⟨i, hi, rfl, rfl⟩
    omega

lemma card_diagCells (H W : Nat) : (diagCells H W).card = min H W := by
  rw [diagCells_eq_image, Finset.card_image_of_injective, Finset.card_range]
  intro a b h
  simpa using h

lemma antiDiagCells_eq_image_le {H W : Nat} (hH : 0 < H) (hle : H ≤ W) :
    antiDiagCells H W = (Finset.range H).image fun i => (i, H - 1 - i) := by
  ext p
  obtain ⟨r, c⟩ := p
  simp only [antiDiagCells, Finset.mem_filter, mem_gridCellSet, Finset.mem_image,
    Finset.mem_range, if_pos hle, Prod.mk.injEq]
  constructor
  · rintro ⟨⟨h1, h2⟩, h3, h4⟩
    exact ⟨r, by omega, rfl, by omega⟩
  · rintro ⟨i, hi, rfl, rfl⟩
    omega

lemma antiDiagCells_eq_image_gt {H W : Nat} (hW : 0 < W) (hgt : W < H) :
    antiDiagCells H W = (Finset.range W).image fun i => (i, W - 1 - i) := by
  ext p
  obtain ⟨r, c⟩ := p
  have : ¬ H ≤ W := by omega
  simp only [antiDiagCells, Finset.mem_filter, mem_gridCellSet, Finset.mem_image,
    Finset.mem_range, if_neg this, Prod.mk.injEq]
  constructor
  · rintro ⟨⟨h1, h2⟩, h3, h4⟩
    exact ⟨r, by omega, rfl, by omega⟩
  · rintro ⟨i, hi, rfl, rfl⟩
    omega

lemma card_antiDiagCells {H W : Nat} (hH : 0 < H) (hW : 0 < W) :
    (antiDiagCells H W).card = min H W := by
  rcases le_or_lt H W with hle | hgt
  · rw [antiDiagCells_eq_image_le hH hle, Finset.card_image_of_injective,
      Finset.card_range, Nat.min_eq_left hle]
    intro a b h
    simpa using congrArg Prod.fst h
  · rw [antiDiagCells_eq_image_gt hW hgt, Finset.card_image_of_injective,
      Finset.card_range, Nat.min_eq_right (le_of_lt hgt)]
    intro a b h
    simpa using congrArg Prod.fst h

lemma rowCells_eq_image {row H W : Nat} (h : row < H) :
    rowCells row H W = (Finset.range W).image fun c => (row, c) := by
  ext p
  obtain ⟨r, c⟩ := p
  simp only [rowCells, Finset.mem_filter, mem_gridCellSet, Finset.mem_image,
    Finset.mem_range, Prod.mk.injEq]
  constructor
  · rintro ⟨⟨h1, h2⟩, rfl⟩
    exact ⟨c, h2, rfl, rfl⟩
  · rintro ⟨i, hi, rfl, rfl⟩
    omega

lemma card_rowCells {row H W : Nat} (h : row < H) : (rowCells row H W).card = W := by
  rw [rowCells_eq_image h, Finset.card_image_of_injective, Finset.card_range]
  intro a b hab
  simpa using hab

lemma colCells_eq_image {col H W : Nat} (h : col < W) :
    colCells col H W = (Finset.range H).image fun r => (r, col) := by
  ext p
  obtain ⟨r, c⟩ := p
  simp only [colCells, Finset.mem_filter, mem_gridCellSet, Finset.mem_image,
    Finset.mem_range, Prod.mk.injEq]
  constructor
  · rintro ⟨⟨h1, h2⟩, rfl⟩
    exact ⟨r, h1, rfl, rfl⟩
  · rintro ⟨i, hi, rfl, rfl⟩
    omega

lemma card_colCells {col H W : Nat} (h : col < W) : (colCells col H W).card = H := by
  rw [colCells_eq_image h, Finset.card_image_of_injective, Finset.card_range]
  intro a b hab
  simpa using hab

lemma rectCells_eq_Ico {r1 r2 c1 c2 H W : Nat} (h2 : r2 ≤ H) (h4 : c2 ≤ W) :
    rectCells r1 r2 c1 c2 H W = Finset.Ico r1 r2 ×ˢ Finset.Ico c1 c2 := by
  ext p
  obtain ⟨r, c⟩ := p
  simp only [rectCells, Finset.mem_filter, mem_gridCellSet, Finset.mem_product,
    Finset.mem_Ico]
  omega

lemma card_rectCells {r1 r2 c1 c2 H W : Nat} (h2 : r2 ≤ H) (h4 : c2 ≤ W) :
    (rectCells r1 r2 c1 c2 H W).card = (r2 - r1) * (c2 - c1) := by
  rw [rectCells_eq_Ico h2 h4, Finset.card_product, Nat.card_Ico, Nat.card_Ico]

lemma borderKeyList_toFinset {H W : Nat} (hH : 0 < H) (hW : 0 < W) :
    (borderKeyList H W).toFinset = borderCells H W := by
  ext p
  obtain ⟨r, c⟩ := p
  simp only [borderKeyList, borderCells, List.mem_toFinset, List.mem_append,
    List.mem_flatMap, List.mem_range, List.mem_range'_1, Finset.mem_filter,
    mem_gridCellSet, List.mem_cons, List.mem_singleton, List.not_mem_nil,
    or_false, Prod.mk.injEq]
  constructor
  · rintro (⟨i, hi, ⟨rfl, rfl⟩ | ⟨rfl, rfl⟩⟩ | ⟨i, hi, ⟨rfl, rfl⟩ | ⟨rfl, rfl⟩⟩) <;>
      refine ⟨⟨by omega, by omega⟩, by omega⟩
  · rintro ⟨⟨h1, h2⟩, h3 | h3 | h3 | h3⟩
    · exact Or.inl ⟨c, h2, Or.inl ⟨h3, rfl⟩⟩
    · exact Or.inl ⟨c, h2, Or.inr ⟨h3, rfl⟩⟩
    · rcases Nat.eq_zero_or_pos r with hr | hr
      · exact Or.inl ⟨c, h2, Or.inl ⟨hr, rfl⟩⟩
      · rcases Nat.lt_or_ge r (H - 1) with hr2 | hr2
        · exact Or.inr ⟨r, ⟨hr, by omega⟩, Or.inl ⟨rfl, h3⟩⟩
        · exact Or.inl ⟨c, h2, Or.inr ⟨by omega, rfl⟩⟩
    · rcases Nat.eq_zero_or_pos r with hr | hr
      · exact Or.inl ⟨c, h2, Or.inl ⟨hr, rfl⟩⟩
      · rcases Nat.lt_or_ge r (H - 1) with hr2 | hr2
        · exact Or.inr ⟨r, ⟨hr, by omega⟩, Or.inr ⟨rfl, h3⟩⟩
        · exact Or.inl ⟨c, h2, Or.inr ⟨by omega, rfl⟩⟩

/-! Facts about the min/max folds of the filled-rectangle tester. -/

lemma foldl_min_le (f : GridCoord → Nat) :
    ∀ (l : List GridCoord) (a : Nat), l.foldl (fun b y => min b (f y)) a ≤ a
  | [], _ => le_refl _
  | x :: xs, a => le_trans (foldl_min_le f xs (min a (f x))) (min_le_left _ _)

lemma foldl_min_le_of_mem (f : GridCoord → Nat) :
    ∀ (l : List GridCoord) (a : Nat) (x : GridCoord), x ∈ l →
      l.foldl (fun b y => min b (f y)) a ≤ f x
  | x' :: xs, a, x, h => by
    rcases List.mem_cons.1 h with rfl | h
    · exact le_trans (foldl_min_le f xs _) (min_le_right _ _)
    · exact foldl_min_le_of_mem f xs _ x h

lemma foldl_min_eq_or_mem (f : GridCoord → Nat) :
    ∀ (l : List GridCoord) (a : Nat),
      l.foldl (fun b y => min b (f y)) a = a ∨
        ∃ x ∈ l, l.foldl (fun b y => min b (f y)) a = f x
  | [], _ => Or.inl rfl
  | x :: xs, a => by
    simp only [List.foldl_cons]
    rcases foldl_min_eq_or_mem f xs (min a (f x)) with h | ⟨y, hy, h⟩
    · rcases le_total a (f x) with hle | hle
      · exact Or.inl (by rw [h, min_eq_left hle])
      · exact Or.inr ⟨x, List.mem_cons_self x xs, by rw [h, min_eq_right hle]⟩
    · exact Or.inr ⟨y, List.mem_cons_of_mem _ hy, h⟩

lemma le_foldl_max (f : GridCoord → Nat) :
    ∀ (l : List GridCoord) (a : Nat), a ≤ l.foldl (fun b y => max b (f y)) a
  | [], _ => le_refl _
  | x :: xs, a => le_trans (le_max_left _ _) (le_foldl_max f xs (max a (f x)))

lemma le_foldl_max_of_mem (f : GridCoord → Nat) :
    ∀ (l : List GridCoord) (a : Nat) (x : GridCoord), x ∈ l →
      f x ≤ l.foldl (fun b y => max b (f y)) a
  | x' :: xs, a, x, h => by
    rcases List.mem_cons.1 h with rfl | h
    · exact le_trans (le_max_right _ _) (le_foldl_max f xs _)
    · exact le_foldl_max_of_mem f xs _ x h

lemma foldl_max_eq_or_mem (f : GridCoord → Nat) :
    ∀ (l : List GridCoord) (a : Nat),
      l.foldl (fun b y => max b (f y)) a = a ∨
        ∃ x ∈ l, l.foldl (fun b y => max b (f y)) a = f x
  | [], _ => Or.inl rfl
  | x :: xs, a => by
    simp only [List.foldl_cons]
    rcases foldl_max_eq_or_mem f xs (max a (f x)) with h | ⟨y, hy, h⟩
    · rcases le_total a (f x) with hle | hle
      · exact Or.inr ⟨x, List.mem_cons_self x xs, by rw [h, max_eq_right hle]⟩
      · exact Or.inl (by rw [h, max_eq_left hle])
    · exact Or.inr ⟨y, List.mem_cons_of_mem _ hy, h⟩

/-! Exactness of the individual testers (used by the C2 theorem). -/

lemma tryFill_isSome_iff {cells : List GridCoord} {ch : Char} {H W : Nat}
    (hin : InBounds cells H W) (hnd : (cellPairs cells).Nodup) :
    (tryFill cells ch H W).isSome ↔ (cellPairs cells).toFinset = fillCells H W := by
  unfold tryFill
  split
  · rename_i hlen
    simp only [Option.isSome_none, Bool.false_eq_true, false_iff]
    intro hS
    exact hlen (by rw [← cellSet_card hnd, hS, fillCells, card_gridCellSet])
  · rename_i hlen
    simp only [Option.isSome_some, true_iff]
    push_neg at hlen
    refine Finset.eq_of_subset_of_card_le (cellSet_subset_grid hin) ?_
    rw [cellSet_card hnd, fillCells, card_gridCellSet, hlen]

lemma tryBorder_isSome_iff {cells : List GridCoord} {ch : Char} {H W : Nat}
    (hH : 0 < H) (hW : 0 < W) :
    (tryBorder cells ch H W).isSome ↔ (cellPairs cells).toFinset = borderCells H W := by
  have hB := borderKeyList_toFinset hH hW
  simp only [tryBorder, hB]
  split_ifs with hcard hsub
  · simp only [Option.isSome_none, Bool.false_eq_true, false_iff]
    intro hS
    exact hcard (by rw [hS])
  · simp only [Option.isSome_some, true_iff]
    push_neg at hcard
    exact (Finset.eq_of_subset_of_card_le hsub (le_of_eq hcard)).symm
  · simp only [Option.isSome_none, Bool.false_eq_true, false_iff]
    intro hS
    exact hsub (by rw [hS])

lemma tryDiagonal_isSome_iff {cells : List GridCoord} {ch : Char} {H W : Nat}
    (hin : InBounds cells H W) (hnd : (cellPairs cells).Nodup) :
    (tryDiagonal cells ch H W).isSome ↔ (cellPairs cells).toFinset = diagCells H W := by
  simp only [tryDiagonal]
  split_ifs with hlen hall
  · simp only [Option.isSome_none, Bool.false_eq_true, false_iff]
    intro hS
    exact hlen (by rw [← cellSet_card hnd, hS, card_diagCells])
  · simp only [Option.isSome_some, true_iff]
    push_neg at hlen
    refine Finset.eq_of_subset_of_card_le ?_ ?_
    · intro p hp
      obtain ⟨g, hg, he⟩ := mem_cellSet.1 hp
      cases he
      have := (List.all_eq_true.1 hall) g hg
      simp only [beq_iff_eq] at this
      exact Finset.mem_filter.2 ⟨mem_gridCellSet.2 ⟨(hin g hg).1, (hin g hg).2⟩, this⟩
    · rw [cellSet_card hnd, card_diagCells, hlen]
  · simp only [Option.isSome_none, Bool.false_eq_true, false_iff]
    intro hS
    refine hall (List.all_eq_true.2 fun g hg => ?_)
    have : (g.row, g.col) ∈ diagCells H W := hS ▸ pair_mem_cellSet hg
    simp only [beq_iff_eq]
    exact (Finset.mem_filter.1 this).2

lemma isSome_guard1 {α : Type} {A : Prop} [Decidable A] (x : α) :
    (if A then (none : Option α) else some x).isSome = true ↔ ¬A := by
  split_ifs with hA <;> simp [hA]

lemma isSome_guard2 {α : Type} {A B : Prop} [Decidable A] [Decidable B] (x : α) :
    (if A then (none : Option α) else if B then some x else none).isSome = true ↔
      ¬A ∧ B := by
  split_ifs with hA hB
  · simp [hA]
  · simp [hA, hB]
  · simp [hA, hB]

lemma tryAntiDiagonal_isSome_iff {cells : List GridCoord} {ch : Char} {H W : Nat}
    (hH : 0 < H) (hW : 0 < W) (hin : InBounds cells H W)
    (hnd : (cellPairs cells).Nodup) :
    (tryAntiDiagonal cells ch H W).isSome ↔
      (cellPairs cells).toFinset = antiDiagCells H W := by
  simp only [tryAntiDiagonal, isSome_guard2, ne_eq, not_not]
  constructor
  · rintro ⟨hlen, hall⟩
    refine Finset.eq_of_subset_of_card_le ?_ ?_
    · intro p hp
      obtain ⟨g, hg, he⟩ := mem_cellSet.1 hp
      cases he
      have hsum := (List.all_eq_true.1 hall) g hg
      simp only [beq_iff_eq] at hsum
      refine Finset.mem_filter.2 ⟨mem_gridCellSet.2 ⟨(hin g hg).1, (hin g hg).2⟩, ?_⟩
      by_cases hle : H ≤ W
      · rw [if_pos hle]
        rw [Nat.min_eq_left hle] at hsum
        exact ⟨hsum, by omega⟩
      · rw [if_neg hle]
        rw [Nat.min_eq_right (by omega)] at hsum
        exact ⟨hsum, by omega⟩
    · rw [cellSet_card hnd, card_antiDiagCells hH hW, hlen]
  · intro hS
    refine ⟨by rw [← cellSet_card hnd, hS, card_antiDiagCells hH hW], ?_⟩
    refine List.all_eq_true.2 fun g hg => ?_
    have hm := (Finset.mem_filter.1 (hS ▸ pair_mem_cellSet hg)).2
    simp only [beq_iff_eq]
    by_cases hle : H ≤ W
    · rw [if_pos hle] at hm
      rw [Nat.min_eq_left hle]
      exact hm.1
    · rw [if_neg hle] at hm
      rw [Nat.min_eq_right (by omega)]
      exact hm.1

lemma headD_mem {cells : List GridCoord} (h : cells ≠ []) :
    cells.headD ⟨0, 0⟩ ∈ cells := by
  cases cells with
  | nil => exact absurd rfl h
  | cons a l => exact List.mem_cons_self a l

lemma tryHorizontalLine_isSome_iff {cells : List GridCoord} {ch : Char} {H W : Nat}
    (hW : 0 < W) (hin : InBounds cells H W) (hnd : (cellPairs cells).Nodup) :
    (tryHorizontalLine cells ch H W).isSome ↔
      ∃ row < H, (cellPairs cells).toFinset = rowCells row H W := by
  simp only [tryHorizontalLine, isSome_guard2, ne_eq, not_not]
  constructor
  · rintro ⟨hlen, hall⟩
    have hne : cells ≠ [] := by
      intro h
      rw [h] at hlen
      simp only [List.length_nil] at hlen
      omega
    have hhead := headD_mem hne
    refine ⟨(cells.headD ⟨0, 0⟩).row, (hin _ hhead).1, ?_⟩
    refine Finset.eq_of_subset_of_card_le ?_ ?_
    · intro p hp
      obtain ⟨g, hg, he⟩ := mem_cellSet.1 hp
      cases he
      have := (List.all_eq_true.1 hall) g hg
      simp only [beq_iff_eq] at this
      exact Finset.mem_filter.2 ⟨mem_gridCellSet.2 ⟨(hin g hg).1, (hin g hg).2⟩, this⟩
    · rw [cellSet_card hnd, card_rowCells ((hin _ hhead).1), hlen]
  · rintro ⟨row, hrow, hS⟩
    have hlen : cells.length = W := by
      rw [← cellSet_card hnd, hS, card_rowCells hrow]
    refine ⟨hlen, List.all_eq_true.2 fun g hg => ?_⟩
    have hne : cells ≠ [] := by
      intro h
      subst h
      exact absurd hg (List.not_mem_nil g)
    have hgm : (g.row, g.col) ∈ rowCells row H W := by
      rw [← hS]
      exact pair_mem_cellSet hg
    have hhm : ((cells.headD ⟨0, 0⟩).row, (cells.headD ⟨0, 0⟩).col) ∈ rowCells row H W := by
      rw [← hS]
      exact pair_mem_cellSet (headD_mem hne)
    have hgr : g.row = row := (Finset.mem_filter.1 hgm).2
    have hhr : (cells.headD ⟨0, 0⟩).row = row := (Finset.mem_filter.1 hhm).2
    simp only [beq_iff_eq]
    rw [hgr, hhr]

lemma tryVerticalLine_isSome_iff {cells : List GridCoord} {ch : Char} {H W : Nat}
    (hH : 0 < H) (hin : InBounds cells H W) (hnd : (cellPairs cells).Nodup) :
    (tryVerticalLine cells ch H W).isSome ↔
      ∃ col < W, (cellPairs cells).toFinset = colCells col H W := by
  simp only [tryVerticalLine, isSome_guard2, ne_eq, not_not]
  constructor
  · rintro ⟨hlen, hall⟩
    have hne : cells ≠ [] := by
      intro h
      rw [h] at hlen
      simp only [List.length_nil] at hlen
      omega
    have hhead := headD_mem hne
    refine ⟨(cells.headD ⟨0, 0⟩).col, (hin _ hhead).2, ?_⟩
    refine Finset.eq_of_subset_of_card_le ?_ ?_
    · intro p hp
      obtain ⟨g, hg, he⟩ := mem_cellSet.1 hp
      cases he
      have := (List.all_eq_true.1 hall) g hg
      simp only [beq_iff_eq] at this
      exact Finset.mem_filter.2 ⟨mem_gridCellSet.2 ⟨(hin g hg).1, (hin g hg).2⟩, this⟩
    · rw [cellSet_card hnd, card_colCells ((hin _ hhead).2), hlen]
  · rintro ⟨col, hcol, hS⟩
    have hlen : cells.length = H := by
      rw [← cellSet_card hnd, hS, card_colCells hcol]
    refine ⟨hlen, List.all_eq_true.2 fun g hg => ?_⟩
    have hne : cells ≠ [] := by
      intro h
      subst h
      exact absurd hg (List.not_mem_nil g)
    have hgm : (g.row, g.col) ∈ colCells col H W := by
      rw [← hS]
      exact pair_mem_cellSet hg
    have hhm : ((cells.headD ⟨0, 0⟩).row, (cells.headD ⟨0, 0⟩).col) ∈ colCells col H W := by
      rw [← hS]
      exact pair_mem_cellSet (headD_mem hne)
    have hgc : g.col = col := (Finset.mem_filter.1 hgm).2
    have hhc : (cells.headD ⟨0, 0⟩).col = col := (Finset.mem_filter.1 hhm).2
    simp only [beq_iff_eq]
    rw [hgc, hhc]

lemma length_filter_eq_iff_all {α : Type} (p : α → Bool) (l : List α) :
    (l.filter p).length = l.length ↔ l.all p = true := by
  constructor
  · intro h
    refine List.all_eq_true.2 fun a ha => ?_
    have heq : l.filter p = l := List.Sublist.eq_of_length (List.filter_sublist l) h
    exact List.of_mem_filter (heq ▸ ha)
  · intro h
    rw [List.filter_eq_self.2 fun a ha => List.all_eq_true.1 h a ha]

lemma tryFilledRectangle_isSome_iff {cells : List GridCoord} {ch : Char} {H W : Nat}
    (hin : InBounds cells H W) (hnd : (cellPairs cells).Nodup) :
    (tryFilledRectangle cells ch H W).isSome ↔
      ∃ r1 r2 c1 c2, r1 < r2 ∧ c1 < c2 ∧ r2 ≤ H ∧ c2 ≤ W ∧
        (cellPairs cells).toFinset = rectCells r1 r2 c1 c2 H W := by
  cases cells with
  | nil =>
    simp only [tryFilledRectangle, Option.isSome_none, Bool.false_eq_true, false_iff]
    rintro ⟨r1, r2, c1, c2, h1, h2, h3, h4, hS⟩
    have hm : (r1, c1) ∈ rectCells r1 r2 c1 c2 H W :=
      Finset.mem_filter.2 ⟨mem_gridCellSet.2 ⟨by omega, by omega⟩,
        ⟨le_refl r1, by omega, le_refl c1, by omega⟩⟩
    rw [← hS] at hm
    simp [cellPairs] at hm
  | cons c0 cs =>
    have hminRle : ∀ x ∈ c0 :: cs, cs.foldl (fun a x => min a x.row) c0.row ≤ x.row := by
      intro x hx
      rcases List.mem_cons.1 hx with rfl | hx
      · exact foldl_min_le _ cs _
      · exact foldl_min_le_of_mem _ cs _ x hx
    have hminRmem : ∃ x ∈ c0 :: cs, cs.foldl (fun a x => min a x.row) c0.row = x.row := by
      rcases foldl_min_eq_or_mem (fun y => y.row) cs c0.row with h | ⟨x, hx, h⟩
      · exact ⟨c0, List.mem_cons_self c0 cs, h⟩
      · exact ⟨x, List.mem_cons_of_mem c0 hx, h⟩
    have hmaxRle : ∀ x ∈ c0 :: cs, x.row ≤ cs.foldl (fun a x => max a x.row) c0.row := by
      intro x hx
      rcases List.mem_cons.1 hx with rfl | hx
      · exact le_foldl_max _ cs _
      · exact le_foldl_max_of_mem _ cs _ x hx
    have hmaxRmem : ∃ x ∈ c0 :: cs, cs.foldl (fun a x => max a x.row) c0.row = x.row := by
      rcases foldl_max_eq_or_mem (fun y => y.row) cs c0.row with h | ⟨x, hx, h⟩
      · exact ⟨c0, List.mem_cons_self c0 cs, h⟩
      · exact ⟨x, List.mem_cons_of_mem c0 hx, h⟩
    have hminCle : ∀ x ∈ c0 :: cs, cs.foldl (fun a x => min a x.col) c0.col ≤ x.col := by
      intro x hx
      rcases List.mem_cons.1 hx with rfl | hx
      · exact foldl_min_le _ cs _
      · exact foldl_min_le_of_mem _ cs _ x hx
    have hminCmem : ∃ x ∈ c0 :: cs, cs.foldl (fun a x => min a x.col) c0.col = x.col := by
      rcases foldl_min_eq_or_mem (fun y => y.col) cs c0.col with h | ⟨x, hx, h⟩
      · exact ⟨c0, List.mem_cons_self c0 cs, h⟩
      · exact ⟨x, List.mem_cons_of_mem c0 hx, h⟩
    have hmaxCle : ∀ x ∈ c0 :: cs, x.col ≤ cs.foldl (fun a x => max a x.col) c0.col := by
      intro x hx
      rcases List.mem_cons.1 hx with rfl | hx
      · exact le_foldl_max _ cs _
      · exact le_foldl_max_of_mem _ cs _ x hx
    have hmaxCmem : ∃ x ∈ c0 :: cs, cs.foldl (fun a x => max a x.col) c0.col = x.col := by
      rcases foldl_max_eq_or_mem (fun y => y.col) cs c0.col with h | ⟨x, hx, h⟩
      · exact ⟨c0, List.mem_cons_self c0 cs, h⟩
      · exact ⟨x, List.mem_cons_of_mem c0 hx, h⟩
    simp only [tryFilledRectangle, isSome_guard2, ne_eq, not_not]
    constructor
    · rintro ⟨hlen, hall⟩
      refine ⟨cs.foldl (fun a x => min a x.row) c0.row,
              cs.foldl (fun a x => max a x.row) c0.row + 1,
              cs.foldl (fun a x => min a x.col) c0.col,
              cs.foldl (fun a x => max a x.col) c0.col + 1, ?_, ?_, ?_, ?_, ?_⟩
      · have h1 := hminRle c0 (List.mem_cons_self c0 cs)
        have h2 := hmaxRle c0 (List.mem_cons_self c0 cs)
        omega
      · have h1 := hminCle c0 (List.mem_cons_self c0 cs)
        have h2 := hmaxCle c0 (List.mem_cons_self c0 cs)
        omega
      · obtain ⟨x, hx, he⟩ := hmaxRmem
        have := (hin x hx).1
        omega
      · obtain ⟨x, hx, he⟩ := hmaxCmem
        have := (hin x hx).2
        omega
      · apply Finset.Subset.antisymm
        · intro p hp
          obtain ⟨g, hg, he⟩ := mem_cellSet.1 hp
          cases he
          refine Finset.mem_filter.2 ⟨mem_gridCellSet.2 ⟨(hin g hg).1, (hin g hg).2⟩,
            hminRle g hg, ?_, hminCle g hg, ?_⟩
          · have := hmaxRle g hg
            omega
          · have := hmaxCle g hg
            omega
        · intro p hp
          obtain ⟨hgrid, hb1, hb2, hb3, hb4⟩ := Finset.mem_filter.1 hp
          have hr := List.all_eq_true.1 hall p.1 (by
            rw [List.mem_range'_1]
            omega)
          have hc := List.all_eq_true.1 hr p.2 (by
            rw [List.mem_range'_1]
            omega)
          have := of_decide_eq_true hc
          simpa using this
    · rintro ⟨r1, r2, c1, c2, h1, h2, h3, h4, hS⟩
      have hmem : ∀ g ∈ c0 :: cs, r1 ≤ g.row ∧ g.row < r2 ∧ c1 ≤ g.col ∧ g.col < c2 := by
        intro g hg
        have hgm : (g.row, g.col) ∈ rectCells r1 r2 c1 c2 H W := by
          rw [← hS]
          exact pair_mem_cellSet hg
        exact (Finset.mem_filter.1 hgm).2
      have hcorner : ∀ r c, r1 ≤ r → r < r2 → c1 ≤ c → c < c2 →
          ∃ g ∈ c0 :: cs, g.row = r ∧ g.col = c := by
        intro r c ha hb hc hd
        have hm : (r, c) ∈ rectCells r1 r2 c1 c2 H W :=
          Finset.mem_filter.2 ⟨mem_gridCellSet.2 ⟨by omega, by omega⟩, ha, hb, hc, hd⟩
        rw [← hS] at hm
        obtain ⟨g, hg, he⟩ := mem_cellSet.1 hm
        exact ⟨g, hg, congrArg Prod.fst he, congrArg Prod.snd he⟩
      have hminR_eq : cs.foldl (fun a x => min a x.row) c0.row = r1 := by
        obtain ⟨x, hx, he⟩ := hminRmem
        obtain ⟨g, hg, hgr, hgc⟩ := hcorner r1 c1 (le_refl r1) h1 (le_refl c1) h2
        have hle1 := hminRle g hg
        have hle2 := (hmem x hx).1
        omega
      have hmaxR_eq : cs.foldl (fun a x => max a x.row) c0.row = r2 - 1 := by
        obtain ⟨x, hx, he⟩ := hmaxRmem
        obtain ⟨g, hg, hgr, hgc⟩ := hcorner (r2 - 1) c1 (by omega) (by omega) (le_refl c1) h2
        have hle1 := hmaxRle g hg
        have hle2 := (hmem x hx).2.1
        omega
      have hminC_eq : cs.foldl (fun a x => min a x.col) c0.col = c1 := by
        obtain ⟨x, hx, he⟩ := hminCmem
        obtain ⟨g, hg, hgr, hgc⟩ := hcorner r1 c1 (le_refl r1) h1 (le_refl c1) h2
        have hle1 := hminCle g hg
        have hle2 := (hmem x hx).2.2.1
        omega
      have hmaxC_eq : cs.foldl (fun a x => max a x.col) c0.col = c2 - 1 := by
        obtain ⟨x, hx, he⟩ := hmaxCmem
        obtain ⟨g, hg, hgr, hgc⟩ := hcorner r1 (c2 - 1) (le_refl r1) h1 (by omega) (by omega)
        have hle1 := hmaxCle g hg
        have hle2 := (hmem x hx).2.2.2
        omega
      constructor
      · have e1 : cs.foldl (fun a x => max a x.row) c0.row -
            cs.foldl (fun a x => min a x.row) c0.row + 1 = r2 - r1 := by
          omega
        have e2 : cs.foldl (fun a x => max a x.col) c0.col -
            cs.foldl (fun a x => min a x.col) c0.col + 1 = c2 - c1 := by
          omega
        rw [e1, e2, ← card_rectCells h3 h4, ← hS, cellSet_card hnd]
      · refine List.all_eq_true.2 fun r hr => List.all_eq_true.2 fun c hc => ?_
        rw [List.mem_range'_1] at hr hc
        refine decide_eq_true ?_
        rw [hS]
        exact Finset.mem_filter.2 ⟨mem_gridCellSet.2 ⟨by omega, by omega⟩,
          by omega, by omega, by omega, by omega⟩

lemma tryCheckerboard_isSome_iff {cells : List GridCoord} {ch : Char} {H W : Nat} :
    (tryCheckerboard cells ch H W).isSome ↔
      ((cells.length : Int) - (((H * W + 1) / 2 : Nat) : Int)).natAbs ≤ 1 ∧
        ((cells.all fun c => (c.row + c.col) % 2 == 0) = true ∨
         (cells.all fun c => (c.row + c.col) % 2 == 1) = true) := by
  simp only [tryCheckerboard]
  split_ifs with habs he ho
  · simp only [Option.isSome_none, Bool.false_eq_true, false_iff]
    rintro ⟨h1, _⟩
    omega
  · simp only [Option.isSome_some, true_iff]
    refine ⟨by omega, Or.inl ?_⟩
    rw [← length_filter_eq_iff_all]
    simpa only [beq_iff_eq] using he
  · simp only [Option.isSome_some, true_iff]
    refine ⟨by omega, Or.inr ?_⟩
    rw [← length_filter_eq_iff_all]
    simpa only [beq_iff_eq] using ho
  · simp only [Option.isSome_none, Bool.false_eq_true, false_iff]
    rintro ⟨h1, hall | hall⟩
    · refine he ?_
      simp only [beq_iff_eq]
      exact (length_filter_eq_iff_all _ _).2 hall
    · refine ho ?_
      simp only [beq_iff_eq]
      exact (length_filter_eq_iff_all _ _).2 hall

/-! Facts about the row grouping of the coordinate-set synthesizer. -/

lemma keys_pushPair (acc : List (Nat × List Nat)) (k v : Nat) :
    (pushPair acc k v).map Prod.fst =
      if (acc.any fun e => e.1 == k) = true then acc.map Prod.fst
      else acc.map Prod.fst ++ [k] := by
  unfold pushPair
  split_ifs with h
  · rw [List.map_map]
    refine List.map_congr_left fun e he => ?_
    simp only [Function.comp_apply]
    split_ifs <;> rfl
  · simp

lemma any_key_iff (acc : List (Nat × List Nat)) (k : Nat) :
    (acc.any fun e => e.1 == k) = true ↔ k ∈ acc.map Prod.fst := by
  simp only [List.any_eq_true, List.mem_map, beq_iff_eq]

lemma byRowAux_keys :
    ∀ (cells : List GridCoord) (acc : List (Nat × List Nat)),
      (acc.map Prod.fst).Nodup →
      ((cells.foldl (fun a cell => pushPair a cell.row cell.col) acc).map Prod.fst).Nodup ∧
      ∀ k, k ∈ (cells.foldl (fun a cell => pushPair a cell.row cell.col) acc).map Prod.fst ↔
        k ∈ acc.map Prod.fst ∨ k ∈ cells.map fun g => g.row
  | [], acc, hnd => ⟨hnd, by simp⟩
  | cell :: rest, acc, hnd => by
    simp only [List.foldl_cons]
    have hstep_keys := keys_pushPair acc cell.row cell.col
    have hstep_nd : ((pushPair acc cell.row cell.col).map Prod.fst).Nodup := by
      rw [hstep_keys]
      split_ifs with h
      · exact hnd
      · have hnotin : cell.row ∉ acc.map Prod.fst :=
          fun hc => h ((any_key_iff acc cell.row).2 hc)
        rw [List.nodup_append]
        refine ⟨hnd, List.nodup_singleton _, fun a ha hb => ?_⟩
        rw [List.mem_singleton] at hb
        subst hb
        exact hnotin ha
    obtain ⟨hnd', hmem'⟩ := byRowAux_keys rest (pushPair acc cell.row cell.col) hstep_nd
    refine ⟨hnd', fun k => ?_⟩
    rw [hmem' k, hstep_keys]
    by_cases h : (acc.any fun e => e.1 == cell.row) = true
    · rw [if_pos h]
      have hc : cell.row ∈ acc.map Prod.fst := (any_key_iff acc cell.row).1 h
      simp only [List.map_cons, List.mem_cons]
      constructor
      · rintro (h1 | h1)
        · exact Or.inl h1
        · exact Or.inr (Or.inr h1)
      · rintro (h1 | h1 | h1)
        · exact Or.inl h1
        · subst h1
          exact Or.inl hc
        · exact Or.inr h1
    · rw [if_neg h]
      simp only [List.mem_append, List.mem_singleton, List.map_cons, List.mem_cons]
      tauto

lemma byRow_length (cells : List GridCoord) :
    (byRow cells).length = ((cells.map fun g => g.row).dedup).length := by
  obtain ⟨hnd, hmem⟩ := byRowAux_keys cells [] (by simp)
  have hK : ((byRow cells).map Prod.fst).toFinset = (cells.map fun g => g.row).toFinset := by
    ext k
    simp only [List.mem_toFinset, byRow]
    rw [hmem k]
    simp
  have h1 : (byRow cells).length = ((byRow cells).map Prod.fst).length := by simp
  have h2 : ((byRow cells).map Prod.fst).Nodup := by
    simp only [byRow]
    exact hnd
  calc (byRow cells).length
      = ((byRow cells).map Prod.fst).length := h1
    _ = ((byRow cells).map Prod.fst).dedup.length := by rw [List.dedup_eq_self.2 h2]
    _ = ((byRow cells).map Prod.fst).toFinset.card := (List.card_toFinset _).symm
    _ = ((cells.map fun g => g.row).toFinset).card := by rw [hK]
    _ = ((cells.map fun g => g.row).dedup).length := List.card_toFinset _


/-! The claim theorems. -/

/-- C1 (failing evaluation): the round-trip property fails on the code.
For the 3×3 grid `gridCB` (symbol 'A' on four of the five even-parity
cells) discovery returns a checkerboard predicate whose expression
`(r + c) % 2 == 0` also covers the unoccupied cell (2,2); evaluating the
if/else-if chain cell-by-cell prints 'A' there, so the evaluation does not
reproduce the canonical rendering and the Verifier reports valid = false.
A second failure mode: for the 1×2 grid `gridA12` the chain output equals
the rendering plus a trailing newline, yet the Verifier still reports
valid = false, because its `trimEnd` also strips the trailing blank cell of
the rendering's last line. -/
theorem c1_roundtrip_fails_on_code :
    getCellsByChar gridCB = [('A', cbCells4)] ∧
    discoverPredicate cbCells4 'A' 3 3 =
      { type := "checkerboard", char := 'A', expression := "(r + c) % 2 == 0",
        params := ["H", "W"], isScalable := true, confidence := 1 } ∧
    chainOutput [('A', checkerSem)] 3 3 = "A A\n A \nA A\n" ∧
    toStringRepr gridCB = "A A\n A \nA  " ∧
    validate gridCB (chainOutput [('A', checkerSem)] 3 3) =
      { valid := false,
        differences := [{ row := 2, col := 2, expected := "(space)",
                          actual := "\x27A\x27" }] } ∧
    getCellsByChar gridA12 = [('A', [⟨0, 0⟩])] ∧
    discoverPredicate [⟨0, 0⟩] 'A' 1 2 =
      { type := "diagonal", char := 'A', expression := "r == c",
        params := ["H", "W"], isScalable := true, confidence := 1 } ∧
    chainOutput [('A', diagSem)] 1 2 = toStringRepr gridA12 ++ "\n" ∧
    (validate gridA12 (chainOutput [('A', diagSem)] 1 2)).valid = false := by
  decide

/-- C2 counterexample: the checkerboard tester reports a match on
`cbCells4` although that coordinate set is a proper subset of the
even-parity class its returned expression characterizes: cell (2,2)
satisfies `(r + c) % 2 == 0` on the 3×3 grid but is not in the set. -/
theorem c2_checkerboard_inexact :
    (tryCheckerboard cbCells4 'A' 3 3).isSome = true ∧
    (cellPairs cbCells4).toFinset ≠ checkerCells 0 3 3 ∧
    (2, 2) ∈ checkerCells 0 3 3 ∧ (2, 2) ∉ (cellPairs cbCells4).toFinset := by
  decide

/-- C2 (amended): on in-bounds, pairwise-distinct coordinate sets over a
positive-dimension grid, the fill, border, diagonal, anti-diagonal,
horizontal-line, vertical-line and filled-rectangle testers each match
exactly the coordinate sets equal to the cell set their returned expression
characterizes (both directions); the checkerboard tester instead matches
precisely when the count is within 1 of ⌈H·W/2⌉ and all coordinates share
one parity of (row+col) mod 2, which can be a proper subset of its
expression's cell set. -/
theorem c2_testers_exact_except_checkerboard (cells : List GridCoord) (ch : Char)
    (H W : Nat) (hH : 0 < H) (hW : 0 < W) (hin : InBounds cells H W)
    (hnd : (cellPairs cells).Nodup) :
    ((tryFill cells ch H W).isSome ↔
      (cellPairs cells).toFinset = fillCells H W) ∧
    ((tryBorder cells ch H W).isSome ↔
      (cellPairs cells).toFinset = borderCells H W) ∧
    ((tryDiagonal cells ch H W).isSome ↔
      (cellPairs cells).toFinset = diagCells H W) ∧
    ((tryAntiDiagonal cells ch H W).isSome ↔
      (cellPairs cells).toFinset = antiDiagCells H W) ∧
    ((tryHorizontalLine cells ch H W).isSome ↔
      ∃ row < H, (cellPairs cells).toFinset = rowCells row H W) ∧
    ((tryVerticalLine cells ch H W).isSome ↔
      ∃ col < W, (cellPairs cells).toFinset = colCells col H W) ∧
    ((tryFilledRectangle cells ch H W).isSome ↔
      ∃ r1 r2 c1 c2, r1 < r2 ∧ c1 < c2 ∧ r2 ≤ H ∧ c2 ≤ W ∧
        (cellPairs cells).toFinset = rectCells r1 r2 c1 c2 H W) ∧
    ((tryCheckerboard cells ch H W).isSome ↔
      ((cells.length : Int) - (((H * W + 1) / 2 : Nat) : Int)).natAbs ≤ 1 ∧
        ((cells.all fun c => (c.row + c.col) % 2 == 0) = true ∨
         (cells.all fun c => (c.row + c.col) % 2 == 1) = true)) :=
  ⟨tryFill_isSome_iff hin hnd, tryBorder_isSome_iff hH hW,
   tryDiagonal_isSome_iff hin hnd, tryAntiDiagonal_isSome_iff hH hW hin hnd,
   tryHorizontalLine_isSome_iff hW hin hnd, tryVerticalLine_isSome_iff hH hin hnd,
   tryFilledRectangle_isSome_iff hin hnd, tryCheckerboard_isSome_iff⟩

/-- C2 witness: the exactness theorem instantiated at `cells3` on a 3×3
grid, with every hypothesis discharged by evaluation. -/
theorem c2_testers_exact_witness :
    ((0 : Nat) < 3 ∧ InBounds cells3 3 3 ∧ (cellPairs cells3).Nodup) ∧
    ((tryFill cells3 'A' 3 3).isSome ↔
      (cellPairs cells3).toFinset = fillCells 3 3) :=
  ⟨⟨by decide, by decide, by decide⟩,
   (c2_testers_exact_except_checkerboard cells3 'A' 3 3 (by decide) (by decide)
     (by decide) (by decide)).1⟩

/-- C3 counterexample: the synthesized code's isScalable flag is not the
conjunction of the predicates' flags.  A real horizontal-line predicate
with a non-parametric row (row 4 of a 7-row grid) has isScalable = false,
yet `generate` reports isScalable = true because no coordinate_set
predicate is present. -/
theorem c3_isScalable_not_conjunction :
    tryHorizontalLine hlCells73 'A' 7 3 = some pHL47 ∧
    pHL47.isScalable = false ∧
    (generate [pHL47] 7 3 []).isScalable = true ∧
    (generate [pHL47] 7 3 []).isScalable ≠ [pHL47].all fun p => p.isScalable := by
  decide

/-- C3 (amended): `generate` reports isScalable = true exactly when no
predicate in the list has kind coordinate_set; the individual predicates'
own isScalable flags play no role. -/
theorem c3_generate_isScalable_iff (predicates : List Predicate) (H W : Nat)
    (cellsByChar : List (Char × List GridCoord)) :
    (generate predicates H W cellsByChar).isScalable = true ↔
      ∀ p ∈ predicates, p.type ≠ "coordinate_set" := by
  simp only [generate, Bool.not_eq_true', List.any_eq_false, beq_iff_eq, ne_eq]

/-- C3 witness: the scalability iff applied to the concrete predicate list
`[pHL47]`, which contains no coordinate_set predicate. -/
theorem c3_generate_isScalable_iff_witness :
    (generate [pHL47] 7 3 []).isScalable = true :=
  (c3_generate_isScalable_iff [pHL47] 7 3 []).2 (by decide)

/-- C4 counterexample: `validate` does not distinguish two candidates that
differ only in non-newline trailing whitespace on the last line.  On the
1×1 grid rendering "X", the candidates "X \n" (trailing space) and "X\n"
validate identically — both valid — although the claim requires them to be
distinguished. -/
theorem c4_trailing_space_not_distinguished :
    toStringRepr gridX = "X" ∧ ("X \n" : String) ≠ "X\n" ∧
    validate gridX "X \n" = validate gridX "X\n" ∧
    (validate gridX "X \n").valid = true := by
  decide

/-- C4 (amended): the candidate's normalization is a full `trimEnd` — ALL
trailing whitespace (spaces, tabs, newlines) is stripped, not just one
trailing newline — and that is the only normalization: candidates equal
after the strip are never distinguished, and validity holds exactly when
the stripped candidate equals the grid's rendering byte for byte. -/
theorem c4_validate_trimEnd (g : Grid) (s t : String) :
    (jsTrimEnd s = jsTrimEnd t → validate g s = validate g t) ∧
    ((validate g s).valid = true ↔ toStringRepr g = jsTrimEnd s) := by
  constructor
  · intro h
    simp only [validate, h]
  · simp only [validate]
    split_ifs with hE
    · simp [hE]
    · simp [hE]

/-- C4 witness: the congruence applied to the two concrete candidates. -/
theorem c4_validate_trimEnd_witness :
    jsTrimEnd "X \n" = jsTrimEnd "X\n" ∧
    validate gridX "X \n" = validate gridX "X\n" :=
  ⟨by decide, (c4_validate_trimEnd gridX "X \n" "X\n").1 (by decide)⟩

/-- C5 counterexample: the single center cell of a 5×5 grid does not yield
a diagonal predicate: the diagonal and anti-diagonal testers require
exactly min(H,W) = 5 cells, so both reject a singleton, and discovery tags
the result filled_rect. -/
theorem c5_center_cell_not_diagonal :
    (discoverPredicate [⟨2, 2⟩] 'X' 5 5).type = "filled_rect" ∧
    (discoverPredicate [⟨2, 2⟩] 'X' 5 5).type ≠ "diagonal" ∧
    tryDiagonal [⟨2, 2⟩] 'X' 5 5 = none ∧
    tryAntiDiagonal [⟨2, 2⟩] 'X' 5 5 = none := by
  decide

/-- C5 (amended): a 5×5 grid occupied only at (2,2) yields the
filled-rectangle tester's predicate with parameterized 1×1 bounding box
`r >= H/2 && r < H-2 && c >= W/2 && c < W-2`, not a diagonal. -/
theorem c5_center_cell_filled_rect :
    discoverPredicate [⟨2, 2⟩] 'X' 5 5 =
      { type := "filled_rect", char := 'X',
        expression := "r >= H/2 && r < H-2 && c >= W/2 && c < W-2",
        params := ["H", "W"], isScalable := true, confidence := 1 } := by
  decide

/-- C6 counterexample: the predicate discovered for a fully-occupied 4×4
grid does not carry the kind "fill" — the source has no such tag; the fill
tester labels its result "filled_rect". -/
theorem c6_full_grid_not_kind_fill :
    (discoverPredicate full16 'X' 4 4).type = "filled_rect" ∧
    (discoverPredicate full16 'X' 4 4).type ≠ "fill" := by
  decide

/-- C6 (amended): on the fully-occupied 4×4 grid, discovery returns the
fill tester's result (expression `true`, scalable, confidence 1) — tried
and matched before the filled-rectangle tester, whose own bounding-box
result (expression `r >= 0 && r < H && c >= 0 && c < W`) is therefore not
used — but its kind tag is the shared literal "filled_rect", not "fill". -/
theorem c6_full_grid_fill_tester_wins :
    discoverPredicate full16 'X' 4 4 =
      { type := "filled_rect", char := 'X', expression := "true",
        params := ["H", "W"], isScalable := true, confidence := 1 } ∧
    tryFill full16 'X' 4 4 =
      some { type := "filled_rect", char := 'X', expression := "true",
             params := ["H", "W"], isScalable := true, confidence := 1 } ∧
    tryFilledRectangle full16 'X' 4 4 =
      some { type := "filled_rect", char := 'X',
             expression := "r >= 0 && r < H && c >= 0 && c < W",
             params := ["H", "W"], isScalable := true, confidence := 1 } ∧
    (discoverPredicate full16 'X' 4 4).isScalable = true ∧
    (discoverPredicate full16 'X' 4 4).confidence = 1 := by
  decide

/-- C7: discovery is total by construction (every branch returns a
predicate), and whenever all eight geometric testers reject, the result is
the coordinate-set fallback: kind coordinate_set, confidence 0, not
scalable, empty parameter list. -/
theorem c7_discovery_fallback (cells : List GridCoord) (ch : Char) (H W : Nat)
    (h1 : tryFill cells ch H W = none) (h2 : tryBorder cells ch H W = none)
    (h3 : tryDiagonal cells ch H W = none) (h4 : tryAntiDiagonal cells ch H W = none)
    (h5 : tryHorizontalLine cells ch H W = none) (h6 : tryVerticalLine cells ch H W = none)
    (h7 : tryFilledRectangle cells ch H W = none) (h8 : tryCheckerboard cells ch H W = none) :
    discoverPredicate cells ch H W = fallbackCoordinateSet cells ch ∧
    (discoverPredicate cells ch H W).type = "coordinate_set" ∧
    (discoverPredicate cells ch H W).confidence = 0 ∧
    (discoverPredicate cells ch H W).isScalable = false ∧
    (discoverPredicate cells ch H W).params = [] := by
  have hfb : discoverPredicate cells ch H W = fallbackCoordinateSet cells ch := by
    simp only [discoverPredicate, h1, h2, h3, h4, h5, h6, h7, h8]
  refine ⟨hfb, ?_, ?_, ?_, ?_⟩ <;> rw [hfb] <;> rfl

/-- C7 witness: the fallback theorem instantiated at `cells3` on a 3×3
grid, where all eight testers evaluate to none. -/
theorem c7_discovery_fallback_witness :
    tryFill cells3 'A' 3 3 = none ∧ tryCheckerboard cells3 'A' 3 3 = none ∧
    discoverPredicate cells3 'A' 3 3 = fallbackCoordinateSet cells3 'A' :=
  ⟨by decide, by decide,
   (c7_discovery_fallback cells3 'A' 3 3 (by decide) (by decide) (by decide)
     (by decide) (by decide) (by decide) (by decide) (by decide)).1⟩

/-- C8: the value-to-symbol mapping of the code agrees with the claim's
clause-by-clause description (first applicable clause wins) at every value,
dimension and dimension name. -/
theorem c8_parameterize_matches_claim (value dimension : Nat) (dimName : String) :
    parameterizeValue value dimension dimName =
      parameterizeValueClaim value dimension dimName := rfl

/-- C9: above 20 coordinates the synthesized coordinate-set condition is
row-grouped with exactly one outer clause per distinct row; at 20 or below
it is a flat disjunction of `(r==row && c==col)` terms, one per coordinate,
single-line up to 5 terms and line-wrapped above 5. -/
theorem c9_coordinate_condition (cells : List GridCoord) :
    (20 < cells.length →
      generateCoordinateCondition cells = generateGroupedCondition cells ∧
      generateGroupedCondition cells =
        String.intercalate wrapSep (rowConditions (byRow cells)) ∧
      (rowConditions (byRow cells)).length =
        ((cells.map fun g => g.row).dedup).length) ∧
    (0 < cells.length → cells.length ≤ 20 →
      (cells.length ≤ 5 →
        generateCoordinateCondition cells =
          String.intercalate " || " (cells.map coordTerm)) ∧
      (5 < cells.length →
        generateCoordinateCondition cells =
          String.intercalate wrapSep (cells.map coordTerm)) ∧
      (cells.map coordTerm).length = cells.length) := by
  constructor
  · intro h20
    refine ⟨?_, rfl, ?_⟩
    · simp only [generateCoordinateCondition]
      rw [if_neg (by omega), if_pos (by omega)]
    · simp only [rowConditions, List.length_map]
      exact byRow_length cells
  · intro hpos hle
    refine ⟨?_, ?_, by simp⟩
    · intro h5
      simp only [generateCoordinateCondition]
      rw [if_neg (by omega), if_neg (by omega), if_pos (by simpa using h5)]
    · intro h5
      simp only [generateCoordinateCondition]
      rw [if_neg (by omega), if_neg (by omega), if_neg (by simpa using h5)]

/-- C9 witness: 25 coordinates over exactly 3 distinct rows produce exactly
3 outer clauses. -/
theorem c9_coordinate_condition_witness :
    ex25.length = 25 ∧ 20 < ex25.length ∧
    (rowConditions (byRow ex25)).length =
      ((ex25.map fun g => g.row).dedup).length ∧
    ((ex25.map fun g => g.row).dedup).length = 3 :=
  ⟨by decide, by decide, ((c9_coordinate_condition ex25).1 (by decide)).2.2, by decide⟩

/-- C10: the valid flag is not equivalent to an empty differences list.  On
the 1×2 grid whose rendering "A " ends in a blank cell, the byte-exact
candidate "A \n" is trimEnd-stripped to "A", so validate reports
valid = false, while the padded diff (missing characters read as blanks)
finds no differing position. -/
theorem c10_valid_false_empty_differences :
    toStringRepr gridA12 = "A " ∧
    validate gridA12 "A \n" = { valid := false, differences := [] } := by
  decide

end S2C
